import Mathlib

/-!
Shallow embedding of `src/validate_bible_cho_yao.py`, a script that loads a
JSON document, runs five advisory checks over it (summary counts, duplicate
ids, placeholder maintainer contact, spaces in doc paths, natural-language
anti-abuse patterns) and writes the document back out pretty-printed.

JSON values are modelled by the inductive type `Json`; the dynamically typed
Python operations the script performs (`x.get`, `len`, iteration, the `in`
operator, `str.strip`, `str.split`, `str.replace`) are modelled as functions
over `Json` or over `List Char`, returning `Except PyErr _` where the Python
operation can raise.  `Script.main` mirrors the script's `main` function: it
takes the argument vector past the program name and the result of parsing
the named file, and returns the printed lines, the exit status and the
document written to the output file, or the uncaught Python exception.
-/

/-- Values of a parsed JSON document, as produced by Python's `json.load`:
`None`, booleans, numbers (modelled as integers), strings, lists and
dictionaries (association lists with the keys in insertion order). -/
inductive Json where
  | null
  | bool (b : Bool)
  | num (n : Int)
  | str (s : String)
  | arr (elems : List Json)
  | obj (fields : List (String × Json))
  deriving Repr

/-- First-match lookup in an object's association list; dictionaries
produced by `json.load` have unique keys, on which this is `dict` lookup. -/
def lookupKey : List (String × Json) → String → Option Json
  | [], _ => none
  | (k, v) :: rest, key => if k = key then some v else lookupKey rest key

mutual

/-- Equality test on `Json` values modelling Python `==` on the trees
produced by `json.load`: booleans compare equal to the integers 1 and 0
(`True == 1`, `False == 0`), lists compare pointwise, and dictionaries
compare as mappings — same number of entries and, for every key of the
left one, an equal value under the same key in the right one, which on the
duplicate-free key lists `json.load` produces is Python's `dict`
equality. -/
def jeq : Json → Json → Bool
  | .null, .null => true
  | .bool x, .bool y => x == y
  | .num x, .num y => x == y
  | .bool x, .num y => (if x then (1 : Int) else 0) == y
  | .num x, .bool y => x == (if y then (1 : Int) else 0)
  | .str x, .str y => x == y
  | .arr xs, .arr ys => jeqList xs ys
  | .obj xs, .obj ys => xs.length == ys.length && jeqObjSub xs ys
  | _, _ => false

/-- Pointwise equality of JSON arrays. -/
def jeqList : List Json → List Json → Bool
  | [], [] => true
  | x :: xs, y :: ys => jeq x y && jeqList xs ys
  | _, _ => false

/-- Inclusion of a dictionary's entries in another dictionary: every key of
the first maps to an equal value in the second. -/
def jeqObjSub : List (String × Json) → List (String × Json) → Bool
  | [], _ => true
  | (k, v) :: rest, ys =>
    (match lookupKey ys k with
     | some v2 => jeq v v2
     | none => false) && jeqObjSub rest ys

end

instance : BEq Json := ⟨jeq⟩

/-- Values Python can hash, i.e. admissible as `Counter` keys: everything a
JSON document can hold except lists and dictionaries. -/
def hashableB : Json → Bool
  | .arr _ => false
  | .obj _ => false
  | _ => true

/-- Canonical form of a hashable value under Python `==`: booleans collapse
to their integers, everything else is itself. -/
def canon : Json → Json
  | .bool b => .num (if b then 1 else 0)
  | v => v

/-- Whitespace for Python's no-argument `str.strip()` and `str.split()`:
the code points whose `str.isspace()` is true — ASCII whitespace and the
file/group/record/unit separators, next line, no-break space, ogham space
mark, the U+2000 range of typographic spaces, line and paragraph
separators, narrow no-break space, medium mathematical space and
ideographic space. -/
def pyIsSpace (c : Char) : Bool :=
  let n := c.toNat
  (0x9 ≤ n && n ≤ 0xd) || n == 0x20 || (0x1c ≤ n && n ≤ 0x1f) ||
  n == 0x85 || n == 0xa0 || n == 0x1680 || (0x2000 ≤ n && n ≤ 0x200a) ||
  n == 0x2028 || n == 0x2029 || n == 0x202f || n == 0x205f || n == 0x3000

/-- Occurrence test on character lists: does `needle` occur as a contiguous
run inside the list?  Models Python's `in` operator between strings. -/
def hasInfixRun (needle : List Char) : List Char → Bool
  | [] => needle.isEmpty
  | c :: cs => needle.isPrefixOf (c :: cs) || hasInfixRun needle cs

/-- Substring test `needle in hay` on strings. -/
def sContains (hay needle : String) : Bool := hasInfixRun needle.data hay.data

/-- Python `str.strip()` with no arguments: remove leading and trailing
whitespace. -/
def pyStrip (s : String) : String :=
  ⟨((s.data.dropWhile pyIsSpace).reverse.dropWhile pyIsSpace).reverse⟩

/-- Token counter underlying `len(s.split())`: counts maximal runs of
non-whitespace characters.  The flag records whether the previous character
was inside a word. -/
def countTokensAux : Bool → List Char → Nat
  | _, [] => 0
  | inWord, c :: cs =>
    if pyIsSpace c then countTokensAux false cs
    else (if inWord then 0 else 1) + countTokensAux true cs

/-- Number of whitespace-delimited tokens of a string, `len(s.split())` in
Python. -/
def countTokens (s : String) : Nat := countTokensAux false s.data

/-- Fuel-driven replacement of every occurrence of `pat` (scanning left to
right, non-overlapping, resuming after the replaced run) by `rep`.  With
fuel at least the length of the subject and a non-empty pattern this is
Python's `str.replace`. -/
def replaceAux (pat rep : List Char) : Nat → List Char → List Char
  | 0, s => s
  | _+1, [] => []
  | n+1, c :: cs =>
    if pat.isPrefixOf (c :: cs) then
      rep ++ replaceAux pat rep n (List.drop pat.length (c :: cs))
    else
      c :: replaceAux pat rep n cs

/-- Python `s.replace(pat, rep)` for a non-empty pattern. -/
def pyReplace (s pat rep : String) : String :=
  ⟨replaceAux pat.data rep.data s.data.length s.data⟩

mutual

/-- Python `repr` of a JSON value, used when a value is interpolated into a
printed line as a member of a list. -/
def pyRepr : Json → String
  | .null => "None"
  | .bool true => "True"
  | .bool false => "False"
  | .num n => toString n
  | .str s => "\x27" ++ s ++ "\x27"
  | .arr xs => "[" ++ pyReprList xs ++ "]"
  | .obj kvs => "\x7b" ++ pyReprObj kvs ++ "\x7d"

/-- Comma-separated `repr`s of the elements of a list. -/
def pyReprList : List Json → String
  | [] => ""
  | [x] => pyRepr x
  | x :: xs => pyRepr x ++ ", " ++ pyReprList xs

/-- Comma-separated `repr`s of the entries of a dictionary. -/
def pyReprObj : List (String × Json) → String
  | [] => ""
  | [(k, v)] => "\x27" ++ k ++ "\x27: " ++ pyRepr v
  | (k, v) :: kvs => "\x27" ++ k ++ "\x27: " ++ pyRepr v ++ ", " ++ pyReprObj kvs

end

/-- Python `str()` of a value as rendered by `print`: strings print
verbatim, every other value by its `repr`. -/
def pyStr : Json → String
  | .str s => s
  | v => pyRepr v

/-- Uncaught Python exceptions the script can raise on unexpected document
shapes. -/
inductive PyErr where
  | typeError
  | attributeError
  deriving Repr

/-- Python `x.get(key, default)`: dictionary lookup with a default; raises
`AttributeError` when `x` is not a dictionary. -/
def pyGetD (x : Json) (key : String) (dflt : Json) : Except PyErr Json :=
  match x with
  | .obj kvs => .ok ((lookupKey kvs key).getD dflt)
  | _ => .error .attributeError

/-- Python `x.get(key)` with no default: absent keys give `None`. -/
def pyGet (x : Json) (key : String) : Except PyErr Json :=
  pyGetD x key .null

/-- Python `len(x)`: defined on lists, strings and dictionaries, raises
`TypeError` otherwise. -/
def pyLen : Json → Except PyErr Nat
  | .arr xs => .ok xs.length
  | .str s => .ok s.length
  | .obj kvs => .ok kvs.length
  | _ => .error .typeError

/-- Python iteration `for x in j`: lists yield their elements, strings
yield one-character strings, dictionaries yield their keys; other values
raise `TypeError`. -/
def pyIter : Json → Except PyErr (List Json)
  | .arr xs => .ok xs
  | .str s => .ok (s.data.map fun c => Json.str ⟨[c]⟩)
  | .obj kvs => .ok (kvs.map fun kv => Json.str kv.1)
  | _ => .error .typeError

/-- Python `x.items()` on a dictionary; raises `AttributeError` on any
other value. -/
def pyItems : Json → Except PyErr (List (String × Json))
  | .obj kvs => .ok kvs
  | _ => .error .attributeError

/-- Python `needle in x` for a string `needle`: substring test on strings,
membership on lists, key membership on dictionaries, `TypeError` on other
values. -/
def pyInStr (needle : String) : Json → Except PyErr Bool
  | .str s => .ok (sContains s needle)
  | .arr xs => .ok (xs.any fun x => jeq x (.str needle))
  | .obj kvs => .ok (kvs.any fun kv => kv.1 == needle)
  | _ => .error .typeError

/-- Short-circuit Python `or` over tests that may raise. -/
def pyOr (a b : Except PyErr Bool) : Except PyErr Bool := do
  let x ← a
  if x then pure true else b

/-- Comprehension of line 26: the `id` field of every element that is a
dictionary containing that field; every other element is skipped. -/
def extractIds (key : String) (items : List Json) : List Json :=
  items.filterMap fun it =>
    match it with
    | .obj kvs => lookupKey kvs key
    | _ => none

/-- Distinct values of a list in order of first occurrence — the key order
of `collections.Counter`. -/
def firstOcc : List Json → List Json
  | [] => []
  | x :: xs => x :: (firstOcc xs).filter fun y => !jeq y x

/-- Lines 27-28: the values occurring more than once under Python equality
(the count uses `jeq` through the `BEq` instance), listed by their first
occurrence — the `Counter` computation on hashable values. -/
def dupOf (ids : List Json) : List Json :=
  (firstOcc ids).filter fun v => ids.count v > 1

/-- Embedding of `check_unique_ids(items, key)` (lines 25-29): raises
`TypeError` when `items` is not iterable and also when any collected id is
unhashable (a list or dictionary, which `collections.Counter` cannot
count); otherwise returns the duplicated id values. -/
def check_unique_ids (items : Json) (key : String) :
    Except PyErr (List Json) := do
  let xs ← pyIter items
  let ids := extractIds key xs
  if ids.all hashableB then pure (dupOf ids) else .error .typeError

/-- Condition of line 60: `'example.org' in contact or 'replace' in contact
or contact.strip()==''`, with Python's short-circuit evaluation and the
exceptions the operators raise on values of unexpected type. -/
def contactPlaceholder (contact : Json) : Except PyErr Bool :=
  pyOr (pyInStr "example.org" contact)
    (pyOr (pyInStr "replace" contact)
      (match contact with
       | .str s => .ok (pyStrip s = "")
       | _ => .error .attributeError))

/-- Loop of lines 66-69: the entries of `docs` whose value is a string
containing a space character, in order. -/
def docIssues (docs : List (String × Json)) : List (String × String) :=
  docs.filterMap fun kv =>
    match kv.2 with
    | .str v => if sContains v " " then some (kv.1, v) else none
    | _ => none

/-- Loop of lines 79-82: for each anti-abuse record, read its `pattern`
field (default `''`); when the value is a string of more than four
whitespace-delimited tokens, record the pair of the record's `id` field
(`None` when absent) and the pattern.  Each `a.get` raises
`AttributeError` when the element is not a dictionary. -/
def collectNl : List Json → Except PyErr (List (Json × Json))
  | [] => .ok []
  | a :: rest => do
    let p ← pyGetD a "pattern" (.str "")
    let keep :=
      match p with
      | .str s => decide (countTokens s > 4)
      | _ => false
    if keep then do
      let i ← pyGet a "id"
      let tl ← collectNl rest
      pure ((i, p) :: tl)
    else
      collectNl rest

/-- Output path computation of line 90:
`path.replace('.json','') + '.cleaned.json'`. -/
def deriveOutputPath (path : String) : String :=
  pyReplace path ".json" "" ++ ".cleaned.json"

/-- Usage line printed on line 33 when no argument is given. -/
def usageLine : String :=
  "Usage: python3 validate_bible_cho_yao.py bible_cho_yao_v1.5.json"

/-- Observable outcome of a run that did not die on an exception: the lines
printed to standard output, the exit status, and the path and document of
the written output file (`none` when no file is written). -/
structure RunResult where
  stdout : List String
  exitCode : Nat
  written : Option (String × Json)
  deriving Repr

/-- Embedding of `main()` (lines 31-96).  `argv` is `sys.argv[1:]`;
`parseOf path` is the result of `load_json(path)`: the parsed document, or
the parser's error message when the file's content is not valid JSON.  A
`.error` result models the process dying on an uncaught exception; Python
then exits with a non-zero status, and no output file is written because
every exception the checks can raise occurs before `write_json`. -/
def Script.main (argv : List String) (parseOf : String → Except String Json) :
    Except PyErr RunResult :=
  match argv with
  | [] => .ok ⟨[usageLine], 1, none⟩
  | path :: _ =>
    match parseOf path with
    | .error e => .ok ⟨["JSON 解析失败: " ++ e], 2, none⟩
    | .ok data => do
      let sel ← pyGetD data "selection" (.obj [])
      let chapters ← pyGetD sel "chapters" (.arr [])
      let scenarios ← pyGetD data "scenarios" (.arr [])
      let nch ← pyLen chapters
      let nsc ← pyLen scenarios
      let dupCh ← check_unique_ids chapters "id"
      let dupSc ← check_unique_ids scenarios "id"
      let metaV ← pyGetD data "meta" (.obj [])
      let maint ← pyGetD metaV "maintainer" (.obj [])
      let contact ← pyGetD maint "contact" (.str "")
      let isPh ← contactPlaceholder contact
      let docsV ← pyGetD data "docs" (.obj [])
      let docs ← pyItems docsV
      let sgV ← pyGetD data "safeguards" (.obj [])
      let anti ← pyGetD sgV "anti_abuse" (.arr [])
      let antiEls ← pyIter anti
      let nl ← collectNl antiEls
      let docIss := docIssues docs
      let out := deriveOutputPath path
      .ok ⟨
        ["✅ JSON 解析成功。",
         "章节数: " ++ toString nch ++ "，场景数: " ++ toString nsc] ++
        (if dupCh.isEmpty then ["✔ selection.chapters id 唯一"]
         else ["⚠️ selection.chapters 有重复 id: " ++ pyStr (.arr dupCh)]) ++
        (if dupSc.isEmpty then ["✔ scenarios id 唯一"]
         else ["⚠️ scenarios 有重复 id: " ++ pyStr (.arr dupSc)]) ++
        (if isPh then
           ["⚠️ maintainer.contact 似乎是占位，请替换为真实联系方式或删除。 当前: " ++
             pyStr contact]
         else ["✔ maintainer.contact 已设置为: " ++ pyStr contact]) ++
        (if docIss.isEmpty then ["✔ docs 字段路径看起来没有空格问题"]
         else "⚠️ docs 字段中存在包含空格的路径（建议去掉空格）:" ::
           docIss.map fun kv => "   " ++ kv.1 ++ " : " ++ kv.2) ++
        (if nl.isEmpty then ["✔ anti_abuse.pattern 看起来简洁（或已为关键词/regex）"]
         else "⚠️ anti_abuse.pattern 多为自然语言描述（建议转成可执行规则，如 keywords/regex）:" ::
           nl.map fun ip => "    " ++ pyStr ip.1 ++ " : " ++ pyStr ip.2) ++
        ["✅ 已写出美化文件到: " ++ out,
         "下一步建议：",
         "  1) 若要自动检测 anti_abuse，考虑改成 \x7b\x27type\x27:\x27keyword\x27,\x27keywords\x27:[...]\x7d 或 \x7b\x27type\x27:\x27regex\x27,\x27expr\x27:\x27...\x27\x7d",
         "  2) 考虑生成 JSON Schema，用于 CI 校验（我可以帮你生成）",
         "  3) 若想部署成简单网页或 API，我可以给出最小可运行示例（Node 或 Python）"],
        0, some (out, data)⟩

/-- Exit status of the process: a run that dies on an uncaught exception
makes Python exit with status 1. -/
def processExit : Except PyErr RunResult → Nat
  | .ok r => r.exitCode
  | .error _ => 1

/-- Output file written by the process, if any: a run that dies before
reaching `write_json` writes nothing. -/
def writtenFile : Except PyErr RunResult → Option (String × Json)
  | .ok r => r.written
  | .error _ => none

/-- Dictionary test, `isinstance(x, dict)`. -/
def isObjB : Json → Bool
  | .obj _ => true
  | _ => false

/-- List test, `isinstance(x, list)`. -/
def isArrB : Json → Bool
  | .arr _ => true
  | _ => false

/-- String test, `isinstance(x, str)`. -/
def isStrB : Json → Bool
  | .str _ => true
  | _ => false

/-- Total companion of `pyGetD`, used to state shape conditions: lookup with
a default on dictionaries, the default on everything else. -/
def getD0 (x : Json) (key : String) (dflt : Json) : Json :=
  match x with
  | .obj kvs => (lookupKey kvs key).getD dflt
  | _ => dflt

/-- Documents on which every step of `main` is defined: the root is a
dictionary; `selection`, `meta`, `meta.maintainer`, `docs` and `safeguards`
are dictionaries when present; `selection.chapters`, `scenarios` and
`safeguards.anti_abuse` are lists when present; `meta.maintainer.contact`
is a string when present; every `anti_abuse` element is a dictionary; and
the id values collected from `chapters` and `scenarios` are hashable, so
`Counter` can count them.  Absent fields satisfy every condition through
their defaults. -/
def wellShaped (d : Json) : Bool :=
  isObjB d &&
  isObjB (getD0 d "selection" (.obj [])) &&
  isArrB (getD0 (getD0 d "selection" (.obj [])) "chapters" (.arr [])) &&
  isArrB (getD0 d "scenarios" (.arr [])) &&
  isObjB (getD0 d "meta" (.obj [])) &&
  isObjB (getD0 (getD0 d "meta" (.obj [])) "maintainer" (.obj [])) &&
  isStrB (getD0 (getD0 (getD0 d "meta" (.obj [])) "maintainer" (.obj []))
    "contact" (.str "")) &&
  isObjB (getD0 d "docs" (.obj [])) &&
  isObjB (getD0 d "safeguards" (.obj [])) &&
  isArrB (getD0 (getD0 d "safeguards" (.obj [])) "anti_abuse" (.arr [])) &&
  (match getD0 (getD0 d "safeguards" (.obj [])) "anti_abuse" (.arr []) with
   | .arr xs => xs.all isObjB
   | _ => true) &&
  (match getD0 (getD0 d "selection" (.obj [])) "chapters" (.arr []) with
   | .arr xs => (extractIds "id" xs).all hashableB
   | _ => true) &&
  (match getD0 d "scenarios" (.arr []) with
   | .arr xs => (extractIds "id" xs).all hashableB
   | _ => true)

/-- Behavior the output-path claim describes: strip `.json` only when it is
the literal trailing suffix of the path, leave every other occurrence
untouched, then append `.cleaned.json`.  Compared against the code's
`deriveOutputPath`. -/
def deriveOutputPathClaim (path : String) : String :=
  (if List.isSuffixOf ".json".data path.data then
    ⟨path.data.take (path.data.length - 5)⟩
   else path) ++ ".cleaned.json"

theorem ok_bind {α β : Type} (a : α) (f : α → Except PyErr β) :
    ((Except.ok a : Except PyErr α) >>= f) = f a := rfl

theorem pyOr_ok (a b : Bool) : pyOr (.ok a) (.ok b) = .ok (a || b) := by
  cases a <;> rfl

theorem contactPlaceholder_str (s : String) :
    contactPlaceholder (Json.str s) =
      .ok (sContains s "example.org" ||
        (sContains s "replace" || decide (pyStrip s = ""))) := by
  unfold contactPlaceholder pyInStr
  rw [pyOr_ok, pyOr_ok]

theorem isObjB_exists {j : Json} (h : isObjB j = true) : ∃ kvs, j = .obj kvs := by
  cases j <;> first | exact ⟨_, rfl⟩ | simp [isObjB] at h

theorem isArrB_exists {j : Json} (h : isArrB j = true) : ∃ xs, j = .arr xs := by
  cases j <;> first | exact ⟨_, rfl⟩ | simp [isArrB] at h

theorem isStrB_exists {j : Json} (h : isStrB j = true) : ∃ s, j = .str s := by
  cases j <;> first | exact ⟨_, rfl⟩ | simp [isStrB] at h

theorem collectNl_isOk (es : List Json) (h : ∀ e ∈ es, isObjB e = true) :
    ∃ l, collectNl es = .ok l := by
  induction es with
  | nil => exact ⟨[], rfl⟩
  | cons a rest ih =>
    obtain ⟨kvs, rfl⟩ := isObjB_exists (h a (by simp))
    obtain ⟨l, hl⟩ := ih fun e he => h e (by simp [he])
    rw [show collectNl (Json.obj kvs :: rest) =
      (if (match (lookupKey kvs "pattern").getD (Json.str "") with
           | Json.str s => decide (countTokens s > 4)
           | _ => false) then
        (do
          let tl ← collectNl rest
          pure (((lookupKey kvs "id").getD Json.null,
            (lookupKey kvs "pattern").getD (Json.str "")) :: tl))
       else collectNl rest) from rfl]
    by_cases hc : (match (lookupKey kvs "pattern").getD (Json.str "") with
           | Json.str s => decide (countTokens s > 4)
           | _ => false) = true
    · simp only [hc, if_true, hl]
      exact ⟨_, rfl⟩
    · simp only [Bool.not_eq_true] at hc
      simp only [hc, Bool.false_eq_true, if_false]
      exact ⟨l, hl⟩

theorem replaceAux_no_occ (pat rep : List Char) :
    ∀ (n : Nat) (s : List Char), hasInfixRun pat s = false →
      replaceAux pat rep n s = s := by
  intro n
  induction n with
  | zero => intro s _; rfl
  | succ n ih =>
    intro s h
    cases s with
    | nil => rfl
    | cons c cs =>
      simp only [hasInfixRun, Bool.or_eq_false_iff] at h
      simp [replaceAux, h.1, ih cs h.2]

theorem deriveOutputPath_no_occ (p : String) (h : sContains p ".json" = false) :
    deriveOutputPath p = p ++ ".cleaned.json" := by
  have h2 : hasInfixRun ".json".data p.data = false := h
  unfold deriveOutputPath pyReplace
  rw [replaceAux_no_occ _ _ _ _ h2]

theorem sContains_space_iff (s : String) :
    sContains s " " = true ↔ ' ' ∈ s.data := by
  have hgen : ∀ l : List Char, hasInfixRun [' '] l = true ↔ ' ' ∈ l := by
    intro l
    induction l with
    | nil => simp [hasInfixRun]
    | cons c cs ih =>
      by_cases hc : c = ' '
      · subst hc; simp [hasInfixRun, List.isPrefixOf]
      · have hc2 : ¬(' ' = c) := fun h => hc h.symm
        simp [hasInfixRun, List.isPrefixOf, ih, hc, hc2]
  exact hgen s.data

theorem mem_docIssues (docs : List (String × Json)) (k v : String) :
    (k, v) ∈ docIssues docs ↔
      ((k, Json.str v) ∈ docs ∧ sContains v " " = true) := by
  simp only [docIssues, List.mem_filterMap]
  constructor
  · rintro ⟨⟨k2, x⟩, hmem, hf⟩
    cases x with
    | str w =>
      have hf2 : (if sContains w " " = true then some (k2, w) else none) =
          some (k, v) := hf
      by_cases hw : sContains w " " = true
      · rw [if_pos hw] at hf2
        obtain ⟨rfl, rfl⟩ : k2 = k ∧ w = v := by
          simpa using hf2
        exact ⟨hmem, hw⟩
      · rw [if_neg hw] at hf2
        exact Option.noConfusion hf2
    | null => exact Option.noConfusion hf
    | bool b => exact Option.noConfusion hf
    | num n => exact Option.noConfusion hf
    | arr es => exact Option.noConfusion hf
    | obj fs => exact Option.noConfusion hf
  · rintro ⟨hmem, hc⟩
    exact ⟨(k, .str v), hmem, by simp [hc]⟩

theorem boolIntVal_inj (x y : Bool) :
    ((if x then (1 : Int) else 0) = if y then 1 else 0) ↔ x = y := by
  cases x <;> cases y <;> simp

theorem jeq_hashable_iff (a b : Json) (ha : hashableB a = true)
    (hb : hashableB b = true) : jeq a b = true ↔ canon a = canon b := by
  cases a <;> cases b <;> simp_all [jeq, canon, hashableB, boolIntVal_inj]

theorem jeq_refl_h (a : Json) (ha : hashableB a = true) : jeq a a = true :=
  (jeq_hashable_iff a a ha ha).mpr rfl

theorem jeq_symm_h {a b : Json} (ha : hashableB a = true)
    (hb : hashableB b = true) (h : jeq a b = true) : jeq b a = true :=
  (jeq_hashable_iff b a hb ha).mpr ((jeq_hashable_iff a b ha hb).mp h).symm

theorem jeq_trans_h {a b c : Json} (ha : hashableB a = true)
    (hb : hashableB b = true) (hc : hashableB c = true)
    (h1 : jeq a b = true) (h2 : jeq b c = true) : jeq a c = true :=
  (jeq_hashable_iff a c ha hc).mpr
    (((jeq_hashable_iff a b ha hb).mp h1).trans
      ((jeq_hashable_iff b c hb hc).mp h2))

theorem count_eq_countP_jeq (a : Json) (l : List Json) :
    l.count a = l.countP fun w => jeq w a := rfl

theorem countP_jeq_congr (l : List Json) (hh : ∀ x ∈ l, hashableB x = true)
    {a b : Json} (ha : hashableB a = true) (hb : hashableB b = true)
    (hab : jeq a b = true) :
    (l.countP fun w => jeq w a) = l.countP fun w => jeq w b := by
  induction l with
  | nil => rfl
  | cons x xs ih =>
    have hx := hh x (by simp)
    have hxs : ∀ z ∈ xs, hashableB z = true := fun z hz => hh z (by simp [hz])
    have hpred : jeq x a = jeq x b := by
      have hiff : (jeq x a = true) ↔ (jeq x b = true) := by
        rw [jeq_hashable_iff x a hx ha, jeq_hashable_iff x b hx hb,
          (jeq_hashable_iff a b ha hb).mp hab]
      cases hxa : jeq x a <;> cases hxb : jeq x b <;> simp_all
    simp [List.countP_cons, hpred, ih hxs]

theorem firstOcc_subset (l : List Json) : ∀ x ∈ firstOcc l, x ∈ l := by
  induction l with
  | nil => simp [firstOcc]
  | cons x xs ih =>
    intro y hy
    simp only [firstOcc, List.mem_cons] at hy
    rcases hy with rfl | hy
    · simp
    · have := ih y (List.mem_of_mem_filter hy)
      simp [this]

theorem firstOcc_complete (l : List Json) (hh : ∀ x ∈ l, hashableB x = true) :
    ∀ v ∈ l, ∃ r ∈ firstOcc l, jeq r v = true := by
  induction l with
  | nil => simp
  | cons x xs ih =>
    intro v hv
    have hx := hh x (by simp)
    have hhxs : ∀ z ∈ xs, hashableB z = true := fun z hz => hh z (by simp [hz])
    by_cases hjx : jeq x v = true
    · exact ⟨x, by simp [firstOcc], hjx⟩
    · have hvxs : v ∈ xs := by
        rcases List.mem_cons.mp hv with rfl | h
        · exact absurd (jeq_refl_h v hx) hjx
        · exact h
      obtain ⟨r, hrm, hrv⟩ := ih hhxs v hvxs
      have hr : hashableB r = true := hhxs r (firstOcc_subset xs r hrm)
      have hvh : hashableB v = true := hhxs v hvxs
      by_cases hrx : jeq r x = true
      · exact absurd (jeq_trans_h hx hr hvh (jeq_symm_h hr hx hrx) hrv) hjx
      · have hrxf : jeq r x = false := by
          cases h2 : jeq r x
          · rfl
          · exact absurd h2 hrx
        refine ⟨r, ?_, hrv⟩
        simp [firstOcc, List.mem_filter, hrm, hrxf]

theorem firstOcc_pairwise (l : List Json) (hh : ∀ x ∈ l, hashableB x = true) :
    (firstOcc l).Pairwise fun a b => jeq a b = false := by
  induction l with
  | nil => simp [firstOcc]
  | cons x xs ih =>
    have hx := hh x (by simp)
    have hhxs : ∀ z ∈ xs, hashableB z = true := fun z hz => hh z (by simp [hz])
    simp only [firstOcc, List.pairwise_cons]
    constructor
    · intro y hy
      have hyx : jeq y x = false := by
        have h2 := (List.mem_filter.mp hy).2
        simpa using h2
      have hyh : hashableB y = true :=
        hhxs y (firstOcc_subset xs y (List.mem_of_mem_filter hy))
      cases hxy : jeq x y
      · rfl
      · have := jeq_symm_h hx hyh hxy
        rw [hyx] at this
        exact Bool.noConfusion this
    · exact List.Pairwise.sublist (List.filter_sublist _) (ih hhxs)

theorem pairwise_countP_le_one (l : List Json)
    (hh : ∀ x ∈ l, hashableB x = true)
    (hp : l.Pairwise fun a b => jeq a b = false) (a : Json)
    (ha : hashableB a = true) : (l.countP fun w => jeq w a) ≤ 1 := by
  induction l with
  | nil => simp
  | cons x xs ih =>
    have hx := hh x (by simp)
    have hhxs : ∀ z ∈ xs, hashableB z = true := fun z hz => hh z (by simp [hz])
    simp only [List.pairwise_cons] at hp
    rw [List.countP_cons]
    by_cases hxa : jeq x a = true
    · have hz : (xs.countP fun w => jeq w a) = 0 := by
        apply List.countP_eq_zero.mpr
        intro w hw hwa
        have hwh := hhxs w hw
        have hxw : jeq x w = true :=
          jeq_trans_h hx ha hwh hxa (jeq_symm_h hwh ha hwa)
        rw [hp.1 w hw] at hxw
        exact Bool.noConfusion hxw
      simp [hz, hxa]
    · have hf : jeq x a = false := by
        cases h2 : jeq x a
        · rfl
        · exact absurd h2 hxa
      simp [hf, ih hhxs hp.2]

theorem check_unique_ids_ok_of_hashable (key : String) (xs : List Json)
    (h : (extractIds key xs).all hashableB = true) :
    check_unique_ids (Json.arr xs) key = .ok (dupOf (extractIds key xs)) := by
  simp [check_unique_ids, pyIter, ok_bind, h, pure, Except.pure]

theorem check_unique_ids_err_of_unhashable (key : String) (xs : List Json)
    (h : (extractIds key xs).all hashableB = false) :
    check_unique_ids (Json.arr xs) key = .error .typeError := by
  simp [check_unique_ids, pyIter, ok_bind, h]

theorem count_of_mem_dup (ids : List Json)
    (hh : ∀ x ∈ ids, hashableB x = true) {r v : Json}
    (hr : r ∈ dupOf ids) (hv : hashableB v = true) (hrv : jeq r v = true) :
    ids.count v > 1 := by
  have hrfo : r ∈ firstOcc ids := (List.mem_filter.mp hr).1
  have hrc : ids.count r > 1 := by
    have h2 := (List.mem_filter.mp hr).2
    simpa using h2
  have hrh : hashableB r = true := hh r (firstOcc_subset _ r hrfo)
  rw [count_eq_countP_jeq, ← countP_jeq_congr ids hh hrh hv hrv,
    ← count_eq_countP_jeq]
  exact hrc

theorem dup_exists_of_count (ids : List Json)
    (hh : ∀ x ∈ ids, hashableB x = true) {v : Json}
    (hv : hashableB v = true) (hcv : ids.count v > 1) :
    ∃ r ∈ dupOf ids, jeq r v = true := by
  have hex : ∃ w ∈ ids, jeq w v = true := by
    have hpos : 0 < ids.countP fun w => jeq w v := by
      rw [← count_eq_countP_jeq]; omega
    exact List.countP_pos_iff.mp hpos
  obtain ⟨w, hwm, hwv⟩ := hex
  obtain ⟨r, hrm, hrw⟩ := firstOcc_complete ids hh w hwm
  have hwh := hh w hwm
  have hrh := hh r (firstOcc_subset _ r hrm)
  have hrv : jeq r v = true := jeq_trans_h hrh hwh hv hrw hwv
  have hcr : ids.count r > 1 := by
    rw [count_eq_countP_jeq, countP_jeq_congr ids hh hrh hv hrv,
      ← count_eq_countP_jeq]
    exact hcv
  exact ⟨r, List.mem_filter.mpr ⟨hrm, by simpa using hcr⟩, hrv⟩

theorem eq_singleton_of_pairwise (l : List Json)
    (hh : ∀ x ∈ l, hashableB x = true)
    (hp : l.Pairwise fun a b => jeq a b = false) (v : Json)
    (hv : hashableB v = true) (hall : ∀ w ∈ l, jeq w v = true)
    (r : Json) (hr : r ∈ l) : l = [r] := by
  cases l with
  | nil => cases hr
  | cons a t =>
    have ha := hh a (by simp)
    have hav := hall a (by simp)
    have ht : t = [] := by
      cases t with
      | nil => rfl
      | cons b t2 =>
        have hb := hh b (by simp)
        have hbv := hall b (by simp)
        simp only [List.pairwise_cons] at hp
        have hab : jeq a b = true :=
          jeq_trans_h ha hv hb hav (jeq_symm_h hb hv hbv)
        rw [hp.1 b (by simp)] at hab
        exact Bool.noConfusion hab
    subst ht
    rw [List.mem_singleton.mp hr]

/-- C1 (counterexample): the claim "for every input file whose content is
valid JSON the program exits 0 and writes a round-tripping output file" is
false at the valid JSON document `5`: the root is not a dictionary, so
`data.get('selection',{})` raises `AttributeError`, the process exits with
a non-zero status and no output file is written. -/
theorem C1_counterexample :
    Script.main ["b.json"] (fun _ => .ok (Json.num 5)) =
      .error PyErr.attributeError
    ∧ processExit (Script.main ["b.json"] (fun _ => .ok (Json.num 5))) ≠ 0
    ∧ writtenFile (Script.main ["b.json"] (fun _ => .ok (Json.num 5))) = none :=
  ⟨rfl, by decide, rfl⟩

/-- C1 (amended): for every input file whose content is a valid JSON
document that is well shaped for the validator (root a dictionary, the
recognized fields of the documented shapes when present, the collected
chapter and scenario ids hashable), the run exits with status 0 and
writes to the derived output path exactly the document that was read,
unmodified — so the output parses back semantically equal to the
input. -/
theorem C1_wellShaped_exit_zero_roundtrip (d : Json) (path : String)
    (rest : List String) (parseOf : String → Except String Json)
    (hws : wellShaped d = true) (hp : parseOf path = .ok d) :
    processExit (Script.main (path :: rest) parseOf) = 0 ∧
    writtenFile (Script.main (path :: rest) parseOf) =
      some (deriveOutputPath path, d) := by
  simp only [wellShaped, Bool.and_eq_true] at hws
  obtain ⟨⟨⟨⟨⟨⟨⟨⟨⟨⟨⟨⟨h1, h2⟩, h3⟩, h4⟩, h5⟩, h6⟩, h7⟩, h8⟩, h9⟩, h10⟩,
    h11⟩, h12⟩, h13⟩ := hws
  obtain ⟨kvs, rfl⟩ := isObjB_exists h1
  obtain ⟨selKvs, hsel⟩ := isObjB_exists h2
  rw [hsel] at h3
  obtain ⟨chEls, hch⟩ := isArrB_exists h3
  obtain ⟨scEls, hsc⟩ := isArrB_exists h4
  obtain ⟨metaKvs, hmeta⟩ := isObjB_exists h5
  rw [hmeta] at h6
  obtain ⟨maintKvs, hmaint⟩ := isObjB_exists h6
  rw [hmeta, hmaint] at h7
  obtain ⟨cs, hcontact⟩ := isStrB_exists h7
  obtain ⟨docsKvs, hdocs⟩ := isObjB_exists h8
  obtain ⟨sgKvs, hsg⟩ := isObjB_exists h9
  rw [hsg] at h10
  obtain ⟨antiEls, hanti⟩ := isArrB_exists h10
  rw [hsg, hanti] at h11
  rw [hsel, hch] at h12
  rw [hsc] at h13
  have hAll : ∀ e ∈ antiEls, isObjB e = true := by
    simpa [List.all_eq_true] using h11
  obtain ⟨nlL, hnl⟩ := collectNl_isOk antiEls hAll
  have hch12 : (extractIds "id" chEls).all hashableB = true := h12
  have hsc13 : (extractIds "id" scEls).all hashableB = true := h13
  have hcu1 : check_unique_ids (Json.arr chEls) "id" =
      .ok (dupOf (extractIds "id" chEls)) :=
    check_unique_ids_ok_of_hashable "id" chEls hch12
  have hcu2 : check_unique_ids (Json.arr scEls) "id" =
      .ok (dupOf (extractIds "id" scEls)) :=
    check_unique_ids_ok_of_hashable "id" scEls hsc13
  have hsel2 : (lookupKey kvs "selection").getD (Json.obj []) =
    Json.obj selKvs := hsel
  have hch2 : (lookupKey selKvs "chapters").getD (Json.arr []) =
    Json.arr chEls := hch
  have hsc2 : (lookupKey kvs "scenarios").getD (Json.arr []) =
    Json.arr scEls := hsc
  have hmeta2 : (lookupKey kvs "meta").getD (Json.obj []) =
    Json.obj metaKvs := hmeta
  have hmaint2 : (lookupKey metaKvs "maintainer").getD (Json.obj []) =
    Json.obj maintKvs := hmaint
  have hcontact2 : (lookupKey maintKvs "contact").getD (Json.str "") =
    Json.str cs := hcontact
  have hdocs2 : (lookupKey kvs "docs").getD (Json.obj []) =
    Json.obj docsKvs := hdocs
  have hsg2 : (lookupKey kvs "safeguards").getD (Json.obj []) =
    Json.obj sgKvs := hsg
  have hanti2 : (lookupKey sgKvs "anti_abuse").getD (Json.arr []) =
    Json.arr antiEls := hanti
  simp only [Script.main, hp, pyGetD, hsel2, hch2, hsc2, hmeta2, hmaint2,
    hcontact2, hdocs2, hsg2, hanti2, pyLen, hcu1, hcu2, pyIter, pyItems,
    contactPlaceholder_str, hnl, ok_bind, pure, Except.pure, processExit,
    writtenFile]
  simp

/-- C1 witness: the empty JSON object is well shaped; running on it exits 0
and writes the same document to the derived output path. -/
theorem C1_wellShaped_exit_zero_roundtrip_witness :
    wellShaped (Json.obj []) = true ∧
    processExit (Script.main ["b.json"] fun _ => .ok (Json.obj [])) = 0 ∧
    writtenFile (Script.main ["b.json"] fun _ => .ok (Json.obj [])) =
      some (deriveOutputPath "b.json", Json.obj []) :=
  ⟨by decide,
    C1_wellShaped_exit_zero_roundtrip (Json.obj []) "b.json" []
      (fun _ => .ok (Json.obj [])) (by decide) rfl⟩

/-- C2 (counterexample): `DeriveOutputPath` does not leave non-trailing
occurrences of `.json` untouched: on `"a.json.txt"` the code removes the
inner `.json` and yields `"a.txt.cleaned.json"`, while the claimed
strip-only-a-trailing-suffix behavior would yield
`"a.json.txt.cleaned.json"`. -/
theorem C2_counterexample :
    deriveOutputPath "a.json.txt" = "a.txt.cleaned.json" ∧
    deriveOutputPathClaim "a.json.txt" = "a.json.txt.cleaned.json" ∧
    deriveOutputPath "a.json.txt" ≠ deriveOutputPathClaim "a.json.txt" := by
  decide

/-- C2 (amended): `DeriveOutputPath` removes every occurrence of the
substring `.json` from the path (left to right, non-overlapping), not only
a trailing suffix, and then appends `.cleaned.json`; in particular
`"foo.json"` maps to `"foo.cleaned.json"`, `"foo"` to
`"foo.cleaned.json"`, and a path without any occurrence is kept whole. -/
theorem C2_replace_all_occurrences :
    deriveOutputPath "foo.json" = "foo.cleaned.json"
    ∧ deriveOutputPath "foo" = "foo.cleaned.json"
    ∧ (∀ p : String, sContains p ".json" = false →
        deriveOutputPath p = p ++ ".cleaned.json")
    ∧ deriveOutputPath "x.json.json" = "x.cleaned.json" :=
  ⟨by decide, by decide, deriveOutputPath_no_occ, by decide⟩

/-- C2 witness: the no-occurrence case of the amended claim at `"bar"`. -/
theorem C2_replace_all_occurrences_witness :
    sContains "bar" ".json" = false ∧
    deriveOutputPath "bar" = "bar.cleaned.json" :=
  ⟨by decide, C2_replace_all_occurrences.2.2.1 "bar" (by decide)⟩

/-- C3: absence of a recognized field is handled by taking its empty
default, never by raising: `x.get(key, default)` on a dictionary lacking
the key returns the default, and on a document in which all five
recognized top-level fields are absent the whole run succeeds with
chapter and scenario counts 0, no duplicate ids, the placeholder-contact
warning, no doc-path findings, no anti-abuse findings, a written output
file equal to the input document, and exit status 0. -/
theorem C3_absent_fields_defaults :
    (∀ (kvs : List (String × Json)) (key : String) (dflt : Json),
      lookupKey kvs key = none → pyGetD (Json.obj kvs) key dflt = .ok dflt)
    ∧ (∀ (kvs : List (String × Json)) (path : String)
        (parseOf : String → Except String Json),
        parseOf path = .ok (Json.obj kvs) →
        lookupKey kvs "selection" = none →
        lookupKey kvs "scenarios" = none →
        lookupKey kvs "meta" = none →
        lookupKey kvs "docs" = none →
        lookupKey kvs "safeguards" = none →
        Script.main [path] parseOf = .ok ⟨
          ["✅ JSON 解析成功。",
           "章节数: 0，场景数: 0",
           "✔ selection.chapters id 唯一",
           "✔ scenarios id 唯一",
           "⚠️ maintainer.contact 似乎是占位，请替换为真实联系方式或删除。 当前: ",
           "✔ docs 字段路径看起来没有空格问题",
           "✔ anti_abuse.pattern 看起来简洁（或已为关键词/regex）",
           "✅ 已写出美化文件到: " ++ deriveOutputPath path,
           "下一步建议：",
           "  1) 若要自动检测 anti_abuse，考虑改成 \x7b\x27type\x27:\x27keyword\x27,\x27keywords\x27:[...]\x7d 或 \x7b\x27type\x27:\x27regex\x27,\x27expr\x27:\x27...\x27\x7d",
           "  2) 考虑生成 JSON Schema，用于 CI 校验（我可以帮你生成）",
           "  3) 若想部署成简单网页或 API，我可以给出最小可运行示例（Node 或 Python）"],
          0, some (deriveOutputPath path, Json.obj kvs)⟩) := by
  constructor
  · intro kvs key dflt h
    simp [pyGetD, h]
  · intro kvs path parseOf hp h1 h2 h3 h4 h5
    simp only [Script.main, hp, pyGetD, h1, h2, h3, h4, h5]
    rfl

/-- C3 witness: the run on the empty JSON object document. -/
theorem C3_absent_fields_defaults_witness :
    Script.main ["bible.json"] (fun _ => .ok (Json.obj [])) = .ok ⟨
      ["✅ JSON 解析成功。",
       "章节数: 0，场景数: 0",
       "✔ selection.chapters id 唯一",
       "✔ scenarios id 唯一",
       "⚠️ maintainer.contact 似乎是占位，请替换为真实联系方式或删除。 当前: ",
       "✔ docs 字段路径看起来没有空格问题",
       "✔ anti_abuse.pattern 看起来简洁（或已为关键词/regex）",
       "✅ 已写出美化文件到: " ++ deriveOutputPath "bible.json",
       "下一步建议：",
       "  1) 若要自动检测 anti_abuse，考虑改成 \x7b\x27type\x27:\x27keyword\x27,\x27keywords\x27:[...]\x7d 或 \x7b\x27type\x27:\x27regex\x27,\x27expr\x27:\x27...\x27\x7d",
       "  2) 考虑生成 JSON Schema，用于 CI 校验（我可以帮你生成）",
       "  3) 若想部署成简单网页或 API，我可以给出最小可运行示例（Node 或 Python）"],
      0, some (deriveOutputPath "bible.json", Json.obj [])⟩ :=
  C3_absent_fields_defaults.2 [] "bible.json" (fun _ => .ok (Json.obj []))
    rfl rfl rfl rfl rfl rfl

/-- C4: with no arguments the program prints the usage line, exits with
status 1 and writes no output file; with a file that is not valid JSON it
prints the parse-failure message carrying the parser's error text, exits
with status 2 and writes no output file; the statuses 1 and 2 are distinct
from each other and from the success status 0. -/
theorem C4_cli_errors :
    (∀ parseOf, Script.main [] parseOf = .ok ⟨[usageLine], 1, none⟩)
    ∧ (∀ (path : String) (rest : List String)
        (parseOf : String → Except String Json) (msg : String),
        parseOf path = .error msg →
        Script.main (path :: rest) parseOf =
          .ok ⟨["JSON 解析失败: " ++ msg], 2, none⟩)
    ∧ (1 : Nat) ≠ 0 ∧ (2 : Nat) ≠ 0 ∧ (1 : Nat) ≠ 2 := by
  refine ⟨fun _ => rfl, ?_, by decide, by decide, by decide⟩
  intro path rest parseOf msg h
  simp [Script.main, h]

/-- C4 witness: a run on a file whose content fails to parse with the
message "Expecting value". -/
theorem C4_cli_errors_witness :
    Script.main ["bad.json"] (fun _ => .error "Expecting value") =
      .ok ⟨["JSON 解析失败: Expecting value"], 2, none⟩ :=
  C4_cli_errors.2.1 "bad.json" [] (fun _ => .error "Expecting value")
    "Expecting value" rfl

/-- C5: for a string contact value, the maintainer check flags it as a
placeholder exactly when the trimmed string is empty or the string
contains `example.org` or contains `replace` (case-sensitive substring
match); `str` of a string is the string itself, so the "set" message
carries the literal value; and an absent contact reads as the empty
string. -/
theorem C5_maintainer_placeholder :
    ∀ s : String,
      (contactPlaceholder (Json.str s) = .ok true ↔
        (pyStrip s = "" ∨ sContains s "example.org" = true ∨
          sContains s "replace" = true))
      ∧ pyStr (Json.str s) = s
      ∧ (∀ (kvs : List (String × Json)), lookupKey kvs "contact" = none →
          pyGetD (Json.obj kvs) "contact" (Json.str "") = .ok (Json.str "")) := by
  intro s
  refine ⟨?_, rfl, fun kvs h => by simp [pyGetD, h]⟩
  rw [contactPlaceholder_str]
  simp only [Except.ok.injEq, Bool.or_eq_true, decide_eq_true_eq]
  tauto

/-- C5 witness: a dictionary without a `contact` key defaults to the empty
string. -/
theorem C5_maintainer_placeholder_witness :
    lookupKey [("name", Json.str "x")] "contact" = none ∧
    pyGetD (Json.obj [("name", Json.str "x")]) "contact" (Json.str "") =
      .ok (Json.str "") :=
  ⟨rfl, (C5_maintainer_placeholder "x").2.2 [("name", Json.str "x")] rfl⟩

/-- C6: an anti-abuse record whose `pattern` field is the string `s` is
recorded, paired with its `id` field (`None` when absent), exactly when
`s` has strictly more than four whitespace-delimited tokens; a record
whose `pattern` value is not a string is skipped; the 4-token pattern
"no spam or scams" is not flagged and the 7-token pattern
"do not allow spam or scam attempts" is flagged. -/
theorem C6_anti_abuse_token_threshold :
    (∀ (kvs : List (String × Json)) (rest : List Json) (s : String),
      lookupKey kvs "pattern" = some (Json.str s) →
      collectNl (Json.obj kvs :: rest) =
        (if countTokens s > 4 then
          (do
            let tl ← collectNl rest
            pure (((lookupKey kvs "id").getD Json.null, Json.str s) :: tl))
         else collectNl rest))
    ∧ (∀ (kvs : List (String × Json)) (rest : List Json) (v : Json),
        lookupKey kvs "pattern" = some v → isStrB v = false →
        collectNl (Json.obj kvs :: rest) = collectNl rest)
    ∧ countTokens "no spam or scams" = 4
    ∧ countTokens "do not allow spam or scam attempts" = 7
    ∧ collectNl [Json.obj [("id", Json.str "a"),
        ("pattern", Json.str "no spam or scams")]] = .ok []
    ∧ collectNl [Json.obj [("id", Json.str "b"),
        ("pattern", Json.str "do not allow spam or scam attempts")]] =
        .ok [(Json.str "b", Json.str "do not allow spam or scam attempts")] := by
  refine ⟨?_, ?_, by decide, by decide, rfl, rfl⟩
  · intro kvs rest s h
    have heq : collectNl (Json.obj kvs :: rest) =
        (if (match (lookupKey kvs "pattern").getD (Json.str "") with
             | Json.str s => decide (countTokens s > 4)
             | _ => false) then
          (do
            let tl ← collectNl rest
            pure (((lookupKey kvs "id").getD Json.null,
              (lookupKey kvs "pattern").getD (Json.str "")) :: tl))
         else collectNl rest) := rfl
    rw [heq, h]
    by_cases hgt : countTokens s > 4 <;> simp [hgt]
  · intro kvs rest v h hv
    have heq : collectNl (Json.obj kvs :: rest) =
        (if (match (lookupKey kvs "pattern").getD (Json.str "") with
             | Json.str s => decide (countTokens s > 4)
             | _ => false) then
          (do
            let tl ← collectNl rest
            pure (((lookupKey kvs "id").getD Json.null,
              (lookupKey kvs "pattern").getD (Json.str "")) :: tl))
         else collectNl rest) := rfl
    rw [heq, h]
    cases v <;> simp_all [isStrB]

/-- C6 witness: a five-token pattern is recorded with its absent id read
as `None`. -/
theorem C6_anti_abuse_token_threshold_witness :
    lookupKey [("pattern", Json.str "a b c d e")] "pattern" =
      some (Json.str "a b c d e") ∧
    collectNl [Json.obj [("pattern", Json.str "a b c d e")]] =
      (if countTokens "a b c d e" > 4 then
        (do
          let tl ← collectNl []
          pure (((lookupKey [("pattern", Json.str "a b c d e")] "id").getD
            Json.null, Json.str "a b c d e") :: tl))
       else collectNl []) :=
  ⟨rfl, C6_anti_abuse_token_threshold.1 [("pattern", Json.str "a b c d e")] []
    "a b c d e" rfl⟩

/-- C7 (counterexample): the claim that `check_unique_ids` returns the
duplicated id values for every list of records fails when an id value is
unhashable: on two records whose ids are lists, `collections.Counter`
raises `TypeError`, so the check raises instead of returning; moreover the
counting follows Python equality, under which `True` and `1` collide, so
`[True, 1]` has a duplicate. -/
theorem C7_counterexample :
    check_unique_ids (Json.arr [Json.obj [("id", Json.arr [])],
      Json.obj [("id", Json.arr [])]]) "id" = .error PyErr.typeError
    ∧ (∀ res : List Json,
        check_unique_ids (Json.arr [Json.obj [("id", Json.arr [])],
          Json.obj [("id", Json.arr [])]]) "id" ≠ .ok res)
    ∧ dupOf [Json.bool true, Json.num 1] = [Json.bool true] := by
  refine ⟨rfl, fun res h => ?_, rfl⟩
  rw [show check_unique_ids (Json.arr [Json.obj [("id", Json.arr [])],
      Json.obj [("id", Json.arr [])]]) "id" = .error PyErr.typeError
    from rfl] at h
  exact Except.noConfusion h

/-- C7 (amended): when every collected id (taken from exactly the
map-shaped records carrying the field, all others silently skipped) is
hashable, `check_unique_ids` returns the values occurring more than once
under Python equality: a value's class is represented in the result
exactly when its count exceeds one, a pairwise-distinct id list gives the
empty result, and exactly one repeated value — however many times — gives
a one-element result carrying that value's first occurrence; a list
containing an unhashable id makes the check raise `TypeError` instead. -/
theorem C7_duplicate_ids :
    ∀ items : List Json,
      ((∀ x ∈ extractIds "id" items, hashableB x = true) →
        check_unique_ids (Json.arr items) "id" =
          .ok (dupOf (extractIds "id" items)))
      ∧ ((∃ x ∈ extractIds "id" items, hashableB x = false) →
          check_unique_ids (Json.arr items) "id" = .error PyErr.typeError)
      ∧ ((∀ x ∈ extractIds "id" items, hashableB x = true) →
          ∀ v : Json, hashableB v = true →
          ((∃ r ∈ dupOf (extractIds "id" items), jeq r v = true) ↔
            (extractIds "id" items).count v > 1))
      ∧ ((∀ x ∈ extractIds "id" items, hashableB x = true) →
          (extractIds "id" items).Pairwise (fun a b => jeq a b = false) →
          dupOf (extractIds "id" items) = [])
      ∧ ((∀ x ∈ extractIds "id" items, hashableB x = true) →
          ∀ v ∈ extractIds "id" items,
            1 < (extractIds "id" items).count v →
            (∀ w ∈ extractIds "id" items, jeq w v = false →
              (extractIds "id" items).count w ≤ 1) →
            ∃ r, dupOf (extractIds "id" items) = [r] ∧ jeq r v = true) := by
  intro items
  refine ⟨?_, ?_, ?_, ?_, ?_⟩
  · intro hall
    exact check_unique_ids_ok_of_hashable "id" items
      (List.all_eq_true.mpr hall)
  · rintro ⟨x, hxm, hxf⟩
    apply check_unique_ids_err_of_unhashable
    cases hv : (extractIds "id" items).all hashableB
    · rfl
    · have h2 := List.all_eq_true.mp hv x hxm
      rw [hxf] at h2
      exact Bool.noConfusion h2
  · intro hall v hv
    constructor
    · rintro ⟨r, hr, hrv⟩
      exact count_of_mem_dup _ hall hr hv hrv
    · intro hcv
      exact dup_exists_of_count _ hall hv hcv
  · intro hall hp
    apply List.filter_eq_nil_iff.mpr
    intro a hafo
    have hah := hall a (firstOcc_subset _ a hafo)
    have hle := pairwise_countP_le_one _ hall hp a hah
    rw [← count_eq_countP_jeq] at hle
    simp
    omega
  · intro hall v hvm hcv hother
    have hv := hall v hvm
    obtain ⟨r, hrm, hrv⟩ := dup_exists_of_count _ hall hv hcv
    have hdall : ∀ w ∈ dupOf (extractIds "id" items), jeq w v = true := by
      intro w hw
      have hwfo := (List.mem_filter.mp hw).1
      have hwm : w ∈ extractIds "id" items := firstOcc_subset _ w hwfo
      have hwc : (extractIds "id" items).count w > 1 := by
        have h2 := (List.mem_filter.mp hw).2
        simpa using h2
      cases hwv : jeq w v
      · have := hother w hwm hwv
        omega
      · rfl
    have hdh : ∀ x ∈ dupOf (extractIds "id" items), hashableB x = true :=
      fun x hx => hall x (firstOcc_subset _ x ((List.mem_filter.mp hx).1))
    have hdp : (dupOf (extractIds "id" items)).Pairwise
        (fun a b => jeq a b = false) :=
      List.Pairwise.sublist (List.filter_sublist _)
        (firstOcc_pairwise _ hall)
    exact ⟨r, eq_singleton_of_pairwise _ hdh hdp v hv hdall r hrm, hrv⟩

/-- C7 witness: the id `"a"` repeated three times next to a unique `"c"`
yields a single duplicate equal to `"a"`. -/
theorem C7_duplicate_ids_witness :
    ∃ r, dupOf (extractIds "id" [Json.obj [("id", Json.str "a")],
      Json.obj [("id", Json.str "a")], Json.obj [("id", Json.str "a")],
      Json.obj [("id", Json.str "c")]]) = [r] ∧ jeq r (Json.str "a") = true := by
  have hx : extractIds "id" [Json.obj [("id", Json.str "a")],
      Json.obj [("id", Json.str "a")], Json.obj [("id", Json.str "a")],
      Json.obj [("id", Json.str "c")]] =
      [Json.str "a", Json.str "a", Json.str "a", Json.str "c"] := rfl
  apply (C7_duplicate_ids [Json.obj [("id", Json.str "a")],
      Json.obj [("id", Json.str "a")], Json.obj [("id", Json.str "a")],
      Json.obj [("id", Json.str "c")]]).2.2.2.2 ?hall (Json.str "a") ?hmem
    ?hcnt ?hother
  case hall =>
    rw [hx]
    simp [hashableB]
  case hmem =>
    rw [hx]
    exact List.mem_cons_self _ _
  case hcnt => decide
  case hother =>
    rw [hx]
    intro w hw hjw
    simp only [List.mem_cons, List.not_mem_nil, or_false] at hw
    rcases hw with rfl | rfl | rfl | rfl
    · exact absurd hjw (by decide)
    · exact absurd hjw (by decide)
    · exact absurd hjw (by decide)
    · decide

/-- C8: `CheckDocPaths` reports exactly the `docs` entries whose value is a
string containing at least one space character: a pair is in the result
exactly when it is a string entry of `docs` whose value contains a space,
containing a space is the same as having the space character among the
characters, and non-string values are skipped without error. -/
theorem C8_doc_path_spaces :
    (∀ (docs : List (String × Json)) (k v : String),
      (k, v) ∈ docIssues docs ↔
        ((k, Json.str v) ∈ docs ∧ sContains v " " = true))
    ∧ (∀ s : String, sContains s " " = true ↔ ' ' ∈ s.data)
    ∧ docIssues [("guide", Json.str "my docs/file 1.md"),
        ("api", Json.str "docs/file.md"), ("n", Json.num 3)] =
        [("guide", "my docs/file 1.md")] :=
  ⟨mem_docIssues, sContains_space_iff, rfl⟩

/-- C9: on a valid document whose `meta.maintainer.contact` is a number,
the membership test `'example.org' in contact` raises an uncaught
`TypeError`, so the process exits with a non-zero status and writes no
output file. -/
theorem C9_nonstring_contact_crash :
    Script.main ["bible.json"] (fun _ => .ok (Json.obj [("meta",
        Json.obj [("maintainer", Json.obj [("contact", Json.num 7)])])])) =
      .error PyErr.typeError
    ∧ processExit (Script.main ["bible.json"] (fun _ => .ok (Json.obj [("meta",
        Json.obj [("maintainer", Json.obj [("contact", Json.num 7)])])]))) ≠ 0
    ∧ writtenFile (Script.main ["bible.json"] (fun _ => .ok (Json.obj [("meta",
        Json.obj [("maintainer", Json.obj [("contact", Json.num 7)])])]))) =
      none :=
  ⟨rfl, by decide, rfl⟩

/-- C10: a non-mapping element inside `safeguards.anti_abuse` makes
`a.get('pattern','')` raise an uncaught `AttributeError` before the output
file is written, while non-mapping elements inside `selection.chapters`
and `scenarios` are silently skipped by `check_unique_ids` and the run
still exits 0. -/
theorem C10_nonmapping_anti_abuse_crash :
    Script.main ["b.json"] (fun _ => .ok (Json.obj [("safeguards",
        Json.obj [("anti_abuse", Json.arr [Json.str "no spam"])])])) =
      .error PyErr.attributeError
    ∧ writtenFile (Script.main ["b.json"] (fun _ => .ok (Json.obj [("safeguards",
        Json.obj [("anti_abuse", Json.arr [Json.str "no spam"])])]))) = none
    ∧ check_unique_ids (Json.arr [Json.str "x", Json.num 3,
        Json.obj [("id", Json.str "a")]]) "id" = .ok []
    ∧ processExit (Script.main ["b.json"] (fun _ => .ok (Json.obj [("selection",
        Json.obj [("chapters", Json.arr [Json.str "x", Json.num 3])]),
        ("scenarios", Json.arr [Json.bool true])]))) = 0 :=
  ⟨rfl, rfl, rfl, rfl⟩
